import Mathlib

/-!
Verification of the annotation state engine of the YouTube Notes app
(src/app.js, class YouTubeNotesApp).

The JavaScript code is shallowly embedded as pure Lean functions over an
explicit application state.  JS numbers are modelled as rationals (the
code paths verified here never produce NaN or Infinity and do not depend
on binary floating point rounding), JS strings as Lean strings, and the
wall clock (Date.now(), Date.toISOString()) as explicit parameters.  The
DOM, localStorage and rendering calls are input/output glue and are
dropped; the DOM-provided inputs of getFilteredNotes (selected people
and filter mode) become function arguments.
-/

namespace VidNotes

/-- One note object, as built by addNote in src/app.js (lines 436-457):
fields id, text, people, timestamp, createdAt, and the optional
updatedAt added by updateNote.  The JS id is Date.now().toString();
since only equality of ids is ever used and the decimal representation
of a natural number is one-to-one, the id is modelled by the numeric
clock value itself. -/
structure Note where
  id : Nat
  text : String
  people : List String
  timestamp : ℚ
  createdAt : String
  updatedAt : Option String
deriving DecidableEq

/-- The mutable fields of the YouTubeNotesApp instance that the
annotation engine reads and writes: people, notes, videoId, videoUrl,
currentTime (playback position sampled from the active source) and
currentMode. -/
structure AppState where
  people : List String
  notes : List Note
  videoId : Option String
  videoUrl : String
  currentTime : ℚ
  currentMode : String
deriving DecidableEq

/-- Whitespace recognised by the string functions: space, tab and line
breaks (the further Unicode space code points never occur in the inputs
of interest). -/
def isWS (c : Char) : Bool := c == ' ' || c == '\t' || c == '\n' || c == '\r'

/-- Model of the JS builtin String.prototype.trim: strip leading and
trailing whitespace. -/
def jsTrim (s : String) : String :=
  String.mk (((s.toList.dropWhile isWS).reverse.dropWhile isWS).reverse)

/-- addPerson (app.js 371-379): no-op when the name is falsy (empty
string) or already present, otherwise pushes it at the end. -/
def addPerson (name : String) (a : AppState) : AppState :=
  if name = "" ∨ name ∈ a.people then a
  else { a with people := a.people ++ [name] }

/-- removePerson (app.js 381-387): this.people.filter(p => p !== name). -/
def removePerson (name : String) (a : AppState) : AppState :=
  { a with people := a.people.filter (fun p => p != name) }

/-- The comparator of the sort calls in getFilteredNotes
(app.js 552, 565): (a, b) => a.timestamp - b.timestamp, i.e. ascending
timestamps. -/
def timestampLE (x y : Note) : Prop := x.timestamp ≤ y.timestamp

instance : DecidableRel timestampLE :=
  fun x y => inferInstanceAs (Decidable (x.timestamp ≤ y.timestamp))

instance : IsTotal Note timestampLE :=
  ⟨fun x y => le_total x.timestamp y.timestamp⟩

instance : IsTrans Note timestampLE :=
  ⟨fun _ _ _ h1 h2 => le_trans h1 h2⟩

/-- Array.prototype.sort with the timestamp comparator.  ECMAScript
requires sort to be stable, so it is modelled by a stable insertion
sort. -/
def sortNotes (l : List Note) : List Note := List.insertionSort timestampLE l

/-- The filter predicate of getFilteredNotes (app.js 554-562): in mode
"and" the note must contain all selected people, in any other mode at
least one of them (the DOM default is "or"). -/
def noteMatches (selected : List String) (mode : String) (n : Note) : Bool :=
  if mode = "and" then selected.all (fun p => decide (p ∈ n.people))
  else selected.any (fun p => decide (p ∈ n.people))

/-- getFilteredNotes (app.js 543-566).  Returns the produced list
together with the state after the call: with an empty selection the
code returns this.notes.sort(...), and Array.prototype.sort reorders
the array in place, so this.notes itself ends up sorted; with a
non-empty selection this.notes.filter(...) allocates a fresh array and
only that copy is sorted. -/
def getFilteredNotes (selected : List String) (mode : String) (a : AppState) :
    List Note × AppState :=
  if selected = [] then
    (sortNotes a.notes, { a with notes := sortNotes a.notes })
  else
    (sortNotes (a.notes.filter (noteMatches selected mode)), a)

/-- The auto-registration loop shared by addNote and updateNote
(app.js 451-456, 471-476): for each person of the note, addPerson is
called when the name is not yet in this.people. -/
def registerPeople : List String → AppState → AppState
  | [], a => a
  | p :: ps, a => registerPeople ps (if p ∈ a.people then a else addPerson p a)

/-- addNote (app.js 436-457).  The timestamp argument defaults to null;
the note stores timestamp || this.currentTime, so null and 0 are both
replaced by the playback position.  people is filtered by
p => p.trim() (blank entries dropped, kept entries not trimmed).
now is the value of Date.now() and nowISO of new Date().toISOString()
at the call. -/
def addNote (text : String) (ps : List String) (timestamp : Option ℚ)
    (now : Nat) (nowISO : String) (a : AppState) : AppState :=
  if jsTrim text = "" then a
  else
    let note : Note :=
      { id := now
        text := jsTrim text
        people := ps.filter (fun p => jsTrim p != "")
        timestamp :=
          match timestamp with
          | some t => if t = 0 then a.currentTime else t
          | none => a.currentTime
        createdAt := nowISO
        updatedAt := none }
    registerPeople note.people { a with notes := a.notes ++ [note] }

/-- In-place mutation of the first note whose id matches, as done by
updateNote on the object returned by this.notes.find (app.js 460-466):
text is trimmed, people filtered, timestamp replaced, updatedAt set.
There is no empty-text guard in updateNote. -/
def updateNotesList (id : Nat) (text : String) (ps : List String) (t : ℚ)
    (nowISO : String) : List Note → List Note
  | [] => []
  | n :: ns =>
    if n.id = id then
      { n with
        text := jsTrim text
        people := ps.filter (fun p => jsTrim p != "")
        timestamp := t
        updatedAt := some nowISO } :: ns
    else n :: updateNotesList id text ps t nowISO ns

/-- updateNote (app.js 459-477): no-op when no note has the id,
otherwise mutates the found note and runs the auto-registration loop
over the new people list. -/
def updateNote (id : Nat) (text : String) (ps : List String) (t : ℚ)
    (nowISO : String) (a : AppState) : AppState :=
  if a.notes.any (fun n => n.id == id) then
    registerPeople (ps.filter (fun p => jsTrim p != ""))
      { a with notes := updateNotesList id text ps t nowISO a.notes }
  else a

/-- deleteNote (app.js 479-483): this.notes.filter(n => n.id !== id). -/
def deleteNote (id : Nat) (a : AppState) : AppState :=
  { a with notes := a.notes.filter (fun n => n.id != id) }

/-- Numeric value of a decimal digit character. -/
def digitVal (c : Char) : Nat := c.toNat - 48

/-- Value of a list of decimal digit characters, most significant
first; models parseInt on an all-digit string and the digit parts of
parseFloat. -/
def digitsToNat (ds : List Char) : Nat := ds.foldl (fun acc c => 10 * acc + digitVal c) 0

/-- Exponent part of a JS decimal literal, if one follows: [eE][+-]?
digits.  Returns a flag (true = multiply, false = divide) and the
magnitude; a malformed exponent contributes nothing, as parseFloat
then stops before the letter e. -/
def expParts : List Char → Bool × Nat
  | c :: rest =>
    if c == 'e' || c == 'E' then
      match rest with
      | '-' :: r =>
        let dg := r.takeWhile Char.isDigit
        if dg.isEmpty then (true, 0) else (false, digitsToNat dg)
      | '+' :: r =>
        let dg := r.takeWhile Char.isDigit
        if dg.isEmpty then (true, 0) else (true, digitsToNat dg)
      | r =>
        let dg := r.takeWhile Char.isDigit
        if dg.isEmpty then (true, 0) else (true, digitsToNat dg)
    else (true, 0)
  | [] => (true, 0)

/-- Model of the JS builtin parseFloat: skip leading whitespace, read an
optional sign and then the longest leading decimal literal
(digits, optional fraction, optional well-formed exponent); everything
after that literal is ignored.  none models NaN (no digits at all).
The Infinity literal and double rounding are outside the model: they
are unreachable for the timestamp strings at issue. -/
def jsParseFloat (s : String) : Option ℚ :=
  let cs := s.toList.dropWhile isWS
  let (sgn, cs1) : ℚ × List Char :=
    match cs with
    | '-' :: r => (-1, r)
    | '+' :: r => (1, r)
    | r => (1, r)
  let ip := cs1.takeWhile Char.isDigit
  let cs2 := cs1.drop ip.length
  let (fp, cs3) : List Char × List Char :=
    match cs2 with
    | '.' :: r => (r.takeWhile Char.isDigit, r.drop (r.takeWhile Char.isDigit).length)
    | r => ([], r)
  if ip.isEmpty && fp.isEmpty then none
  else
    let mant : ℚ := (digitsToNat ip : ℚ) + (digitsToNat fp : ℚ) / (10 : ℚ) ^ fp.length
    let (pos, e) := expParts cs3
    some (sgn * (if pos then mant * (10 : ℚ) ^ e else mant / (10 : ℚ) ^ e))

/-- The minutes:seconds branch of parseTimestamp (app.js 610-615): the
regex (digits)+:(two digits) anchored at both ends, accepted when the
seconds part is below 60, giving minutes*60 + seconds. -/
def mmssValue (s : String) : Option ℚ :=
  let cs := s.toList
  let ds := cs.takeWhile Char.isDigit
  if ds.isEmpty then none
  else
    match cs.drop ds.length with
    | ':' :: c1 :: c2 :: [] =>
      if c1.isDigit && c2.isDigit then
        let sec := 10 * digitVal c1 + digitVal c2
        if sec < 60 then some ((digitsToNat ds : ℚ) * 60 + (sec : ℚ)) else none
      else none
    | _ => none

/-- parseTimestamp (app.js 602-618): an empty (falsy) input fails;
otherwise parseFloat is tried first and its value returned whenever it
is a number >= 0; only when parseFloat fails or is negative is the
minutes:seconds regex tried. -/
def parseTimestamp (input : String) : Option ℚ :=
  if input = "" then none
  else
    match jsParseFloat input with
    | some q => if 0 ≤ q then some q else mmssValue input
    | none => mmssValue input

/-- The canonical URL written by loadVideoFromId (app.js 84). -/
def canonicalUrl (vid : String) : String := "https://www.youtube.com/watch?v=" ++ vid

/-- loadVideoFromId (app.js 82-93), restricted to its state changes:
stores the id and the canonical watch URL (player creation and
persistence are input/output). -/
def loadVideoFromId (vid : String) (a : AppState) : AppState :=
  { a with videoId := some vid, videoUrl := canonicalUrl vid }

/-- The object serialized by exportData (app.js 621-641) and embedded by
saveProjectAs as the data field (app.js 685-693): youtubeId (the
possibly null videoId), videoUrl, people, notes, settings.currentMode. -/
structure ExportDoc where
  youtubeId : Option String
  videoUrl : String
  people : List String
  notes : List Note
  settingsMode : String
deriving DecidableEq

/-- exportData / the data part of saveProjectAs, as a snapshot of the
current state. -/
def exportData (a : AppState) : ExportDoc :=
  { youtubeId := a.videoId
    videoUrl := a.videoUrl
    people := a.people
    notes := a.notes
    settingsMode := a.currentMode }

/-- The fields of a parsed data object that the loaders read
(data.youtubeId, data.people, data.notes); none models an absent or
null field. -/
structure JData where
  youtubeId : Option String
  people : Option (List String)
  notes : Option (List Note)
deriving DecidableEq

/-- A parsed candidate project document, restricted to the fields the
loaders inspect: the truthiness of the metadata field, the data field,
and the top-level flat-export fields used by the importData fallback. -/
structure JDoc where
  metadataTruthy : Bool
  dataField : Option JData
  youtubeId : Option String
  people : Option (List String)
  notes : Option (List Note)
deriving DecidableEq

/-- Outcome of reading and JSON.parse-ing the selected file: a thrown
parse error, the JSON value null (on which every property access in the
try blocks throws, so both loaders land in their catch branch), or a
parsed document. -/
inductive ParseOutcome where
  | failure
  | nullDoc
  | doc (d : JDoc)

/-- The common assignment sequence of importData (app.js 649-654) and of
the named-project branch of loadProject (app.js 739-744): load the
video when data.youtubeId is truthy, then replace people and notes with
data.people || [] and data.notes || []. -/
def applyFlat (youtubeId : Option String) (people : Option (List String))
    (notes : Option (List Note)) (a : AppState) : AppState :=
  let a1 :=
    match youtubeId with
    | some v => if v = "" then a else loadVideoFromId v a
    | none => a
  { a1 with people := people.getD [], notes := notes.getD [] }

/-- importData (app.js 643-669).  The Bool records whether the success
message was shown (false = the catch branch reported an error and the
state is untouched).  Note that no shape check is performed: any
document that parses is applied, with absent fields defaulted. -/
def importData : ParseOutcome → AppState → AppState × Bool
  | .failure, a => (a, false)
  | .nullDoc, a => (a, false)
  | .doc d, a => (applyFlat d.youtubeId d.people d.notes a, true)

/-- loadProject (app.js 714-772), after the advisory extension and size
checks: a document whose metadata and data fields are both truthy is
loaded as a named project, anything else falls back to importData on
the same parsed content. -/
def loadProject : ParseOutcome → AppState → AppState × Bool
  | .failure, a => (a, false)
  | .nullDoc, a => (a, false)
  | .doc d, a =>
    match d.metadataTruthy, d.dataField with
    | true, some jd => (applyFlat jd.youtubeId jd.people jd.notes a, true)
    | _, _ => importData (.doc d) a

/-- JSON round trip of a flat export: stringify then parse reproduces
the same field values, with a null youtubeId read back as a falsy
field. -/
def docOfExport (e : ExportDoc) : JDoc :=
  { metadataTruthy := false
    dataField := none
    youtubeId := e.youtubeId
    people := some e.people
    notes := some e.notes }

/-- JSON round trip of a saveProjectAs document: a truthy metadata
object and a data object holding the flat fields; there are no
top-level flat fields. -/
def namedDocOf (e : ExportDoc) : JDoc :=
  { metadataTruthy := true
    dataField := some { youtubeId := e.youtubeId, people := some e.people, notes := some e.notes }
    youtubeId := none
    people := none
    notes := none }

/-- JS template-literal interpolation of a possibly null value, as used
by generateSelfContainedHTML (app.js 1347-1348) for
this.videoId = (quoted) data.youtubeId: null is stringified to the four
characters null. -/
def jsTemplate : Option String → String
  | some s => s
  | none => "null"

/-- The state constructed by the runtime embedded by
generateSelfContainedHTML (app.js 1340-1357): people and notes are
injected through JSON.stringify and parsed back structurally
identical, the video id and URL are spliced as raw template-literal
text (so a null id becomes the string null), the mode is view and the
clock starts at 0. -/
def embeddedOf (e : ExportDoc) : AppState :=
  { people := e.people
    notes := e.notes
    videoId := some (jsTemplate e.youtubeId)
    videoUrl := e.videoUrl
    currentTime := 0
    currentMode := "view" }

/-- Fixture notes A, B, C of the filtering example in the specification
(people x, x and y, y; ascending timestamps). -/
def noteA : Note :=
  { id := 1, text := "A", people := ["x"], timestamp := 1, createdAt := "t1", updatedAt := none }

/-- Second fixture note, tagged with both x and y. -/
def noteB : Note :=
  { id := 2, text := "B", people := ["x", "y"], timestamp := 2, createdAt := "t2", updatedAt := none }

/-- Third fixture note, tagged with y only. -/
def noteC : Note :=
  { id := 3, text := "C", people := ["y"], timestamp := 3, createdAt := "t3", updatedAt := none }

/-- A state holding the three fixture notes in insertion order. -/
def abcApp : AppState :=
  { people := ["x", "y"], notes := [noteA, noteB, noteC], videoId := none, videoUrl := "",
    currentTime := 0, currentMode := "edit" }

/-- A state whose store is not in timestamp order. -/
def unsortedApp : AppState :=
  { people := [], notes := [noteB, noteA], videoId := none, videoUrl := "",
    currentTime := 0, currentMode := "edit" }

/-- A single existing note used by the update fixtures. -/
def c3note : Note :=
  { id := 1, text := "hello", people := ["x"], timestamp := 5, createdAt := "c", updatedAt := none }

/-- A state holding c3note. -/
def c3app : AppState :=
  { people := ["x"], notes := [c3note], videoId := none, videoUrl := "",
    currentTime := 0, currentMode := "edit" }

/-- An empty state whose playback position is 7 seconds. -/
def c4app : AppState :=
  { people := [], notes := [], videoId := none, videoUrl := "",
    currentTime := 7, currentMode := "edit" }

/-- An empty state whose playback position is 3 seconds. -/
def c9app : AppState :=
  { people := [], notes := [], videoId := none, videoUrl := "",
    currentTime := 3, currentMode := "edit" }

/-- The empty state. -/
def emptyApp : AppState :=
  { people := [], notes := [], videoId := none, videoUrl := "",
    currentTime := 0, currentMode := "edit" }

/-- A state with a loaded video in canonical form. -/
def vidApp : AppState :=
  { people := ["x"], notes := [noteA], videoId := some "abc", videoUrl := canonicalUrl "abc",
    currentTime := 0, currentMode := "edit" }

/-- The parse of a well-formed JSON document that has none of the
project fields, for instance an empty object: metadata and data are
absent, and so are the flat-export fields. -/
def shapelessDoc : JDoc :=
  { metadataTruthy := false, dataField := none, youtubeId := none, people := none, notes := none }

/-! ## Helper lemmas -/

theorem registerPeople_notes (ps : List String) (a : AppState) :
    (registerPeople ps a).notes = a.notes := by
  induction ps generalizing a with
  | nil => rfl
  | cons p ps ih =>
    show (registerPeople ps (if p ∈ a.people then a else addPerson p a)).notes = a.notes
    rw [ih]
    by_cases hp : p ∈ a.people
    · rw [if_pos hp]
    · rw [if_neg hp]; unfold addPerson; split <;> rfl

theorem registerPeople_spec (ps : List String) (a : AppState) :
    ∃ new, (registerPeople ps a).people = a.people ++ new
      ∧ new.Sublist ps ∧ new.Nodup
      ∧ (∀ p ∈ new, p ∉ a.people)
      ∧ (∀ p ∈ ps, p ≠ "" → p ∈ (registerPeople ps a).people) := by
  induction ps generalizing a with
  | nil => exact ⟨[], by simp [registerPeople], by simp, by simp, by simp, by simp⟩
  | cons p ps ih =>
    have hstep : registerPeople (p :: ps) a
        = registerPeople ps (if p ∈ a.people then a else addPerson p a) := rfl
    by_cases hp : p ∈ a.people
    · rw [hstep, if_pos hp]
      obtain ⟨new, h1, h2, h3, h4, h5⟩ := ih a
      refine ⟨new, h1, List.Sublist.cons p h2, h3, h4, ?_⟩
      intro q hq hqe
      rcases List.mem_cons.mp hq with rfl | hq
      · rw [h1]; exact List.mem_append_left _ hp
      · exact h5 q hq hqe
    · by_cases hpe : p = ""
      · have ha : (if p ∈ a.people then a else addPerson p a) = a := by
          rw [if_neg hp]; unfold addPerson; rw [if_pos (Or.inl hpe)]
        rw [hstep, ha]
        obtain ⟨new, h1, h2, h3, h4, h5⟩ := ih a
        refine ⟨new, h1, List.Sublist.cons p h2, h3, h4, ?_⟩
        intro q hq hqe
        rcases List.mem_cons.mp hq with rfl | hq
        · exact absurd hpe hqe
        · exact h5 q hq hqe
      · have ha : (if p ∈ a.people then a else addPerson p a)
            = { a with people := a.people ++ [p] } := by
          rw [if_neg hp]; unfold addPerson; rw [if_neg]
          push_neg
          exact ⟨hpe, hp⟩
        rw [hstep, ha]
        obtain ⟨new, h1, h2, h3, h4, h5⟩ := ih { a with people := a.people ++ [p] }
        refine ⟨p :: new, ?_, List.Sublist.cons₂ p h2, ?_, ?_, ?_⟩
        · rw [h1]; simp
        · refine List.nodup_cons.mpr ⟨?_, h3⟩
          intro hpn
          exact h4 p hpn (by simp)
        · intro q hq
          rcases List.mem_cons.mp hq with rfl | hq
          · exact hp
          · intro hqa
            exact h4 q hq (by simp [hqa])
        · intro q hq hqe
          rcases List.mem_cons.mp hq with rfl | hq
          · rw [h1]; simp
          · exact h5 q hq hqe

theorem parseTimestamp_of_parseFloat_nonneg (s : String) (q : ℚ) (hs : s ≠ "")
    (h : jsParseFloat s = some q) (hq : 0 ≤ q) : parseTimestamp s = some q := by
  unfold parseTimestamp
  rw [if_neg hs, h]
  exact if_pos hq

theorem parseTimestamp_of_parseFloat_neg (s : String) (q : ℚ) (hs : s ≠ "")
    (h : jsParseFloat s = some q) (hq : ¬ 0 ≤ q) : parseTimestamp s = mmssValue s := by
  unfold parseTimestamp
  rw [if_neg hs, h]
  exact if_neg hq

theorem jsParseFloat_ninety : jsParseFloat "90" = some 90 := by
  have h : jsParseFloat "90"
      = some ((1 : ℚ) * ((((90 : ℕ) : ℚ) + ((0 : ℕ) : ℚ) / (10 : ℚ) ^ (0 : ℕ)) * (10 : ℚ) ^ (0 : ℕ))) := rfl
  rw [h]; norm_num

theorem jsParseFloat_oneThirty : jsParseFloat "1:30" = some 1 := by
  have h : jsParseFloat "1:30"
      = some ((1 : ℚ) * ((((1 : ℕ) : ℚ) + ((0 : ℕ) : ℚ) / (10 : ℚ) ^ (0 : ℕ)) * (10 : ℚ) ^ (0 : ℕ))) := rfl
  rw [h]; norm_num

theorem jsParseFloat_oneSixty : jsParseFloat "1:60" = some 1 := by
  have h : jsParseFloat "1:60"
      = some ((1 : ℚ) * ((((1 : ℕ) : ℚ) + ((0 : ℕ) : ℚ) / (10 : ℚ) ^ (0 : ℕ)) * (10 : ℚ) ^ (0 : ℕ))) := rfl
  rw [h]; norm_num

theorem jsParseFloat_negFive : jsParseFloat "-5" = some (-5) := by
  have h : jsParseFloat "-5"
      = some ((-1 : ℚ) * ((((5 : ℕ) : ℚ) + ((0 : ℕ) : ℚ) / (10 : ℚ) ^ (0 : ℕ)) * (10 : ℚ) ^ (0 : ℕ))) := rfl
  rw [h]; norm_num

/-! ## Claim theorems -/

/-- Claim C1 (code bug evaluation).  parseTimestamp accepts 90 as 90 and
rejects the empty string and -5 as the claim states, but on 1:30 and
1:60 it returns 1 instead of 90 respectively instead of failing: JS
parseFloat accepts the longest numeric leading run, so the minutes part
of any M:SS string is returned by the seconds grammar and the
minutes:seconds branch of the code is unreachable. -/
theorem parseTimestamp_results :
    parseTimestamp "90" = some 90
    ∧ parseTimestamp "1:30" = some 1
    ∧ parseTimestamp "1:60" = some 1
    ∧ parseTimestamp "" = none
    ∧ parseTimestamp "-5" = none := by
  refine ⟨?_, ?_, ?_, rfl, ?_⟩
  · exact parseTimestamp_of_parseFloat_nonneg _ _ (by decide) jsParseFloat_ninety (by norm_num)
  · exact parseTimestamp_of_parseFloat_nonneg _ _ (by decide) jsParseFloat_oneThirty (by norm_num)
  · exact parseTimestamp_of_parseFloat_nonneg _ _ (by decide) jsParseFloat_oneSixty (by norm_num)
  · rw [parseTimestamp_of_parseFloat_neg _ _ (by decide) jsParseFloat_negFive (by norm_num)]
    rfl

/-- Claim C2 (counterexample).  With an empty selection getFilteredNotes
returns this.notes.sort(...), and the in-place sort reorders the
Annotation Store: on a store holding noteB before noteA the element
order changes. -/
theorem getFilteredNotes_reorders_store :
    (getFilteredNotes [] "or" unsortedApp).2.notes ≠ unsortedApp.notes := by decide

/-- Claim C2 (amended).  getFilteredNotes leaves the Registry, the video
reference, the playback clock, the mode and the multiset of Notes (each
with unchanged content) intact, and with a non-empty selection it does
not touch the state at all; but with an empty selection it sorts
this.notes in place into ascending timestamp order, so the element
order of the Annotation Store is not preserved.  Determinism over
identical inputs is immediate since the embedding is a function of its
arguments. -/
theorem getFilteredNotes_state_effect (selected : List String) (mode : String) (a : AppState) :
    ((getFilteredNotes selected mode a).2.people = a.people
      ∧ (getFilteredNotes selected mode a).2.videoId = a.videoId
      ∧ (getFilteredNotes selected mode a).2.videoUrl = a.videoUrl
      ∧ (getFilteredNotes selected mode a).2.currentTime = a.currentTime
      ∧ (getFilteredNotes selected mode a).2.currentMode = a.currentMode
      ∧ ((getFilteredNotes selected mode a).2.notes).Perm a.notes)
    ∧ (selected ≠ [] → (getFilteredNotes selected mode a).2 = a)
    ∧ (selected = [] → (getFilteredNotes selected mode a).2.notes = sortNotes a.notes) := by
  by_cases h : selected = []
  · subst h
    exact ⟨⟨rfl, rfl, rfl, rfl, rfl, List.perm_insertionSort timestampLE a.notes⟩,
      fun hne => absurd rfl hne, fun _ => rfl⟩
  · unfold getFilteredNotes
    rw [if_neg h]
    exact ⟨⟨rfl, rfl, rfl, rfl, rfl, List.Perm.refl _⟩, fun _ => rfl, fun he => absurd he h⟩

/-- Claim C2 (witness). -/
theorem getFilteredNotes_state_effect_witness :
    (getFilteredNotes ["x"] "or" abcApp).2 = abcApp :=
  (getFilteredNotes_state_effect ["x"] "or" abcApp).2.1 (by decide)

/-- Claim C3 (code bug evaluation).  addNote with text that trims to
empty is a no-op, but updateNote with such text is not: it overwrites
the note, leaving an empty text (and the new people, timestamp and
updatedAt), although the claim and the add path require blank text to
be rejected. -/
theorem updateNote_blank_text_overwrites :
    addNote "   " ["z"] (some 1) 2 "c2" c3app = c3app
    ∧ (updateNote 1 "   " ["y"] 9 "c2" c3app).notes
        = [{ id := 1, text := "", people := ["y"], timestamp := 9,
             createdAt := "c", updatedAt := some "c2" }]
    ∧ (updateNote 1 "   " ["y"] 9 "c2" c3app).notes ≠ c3app.notes := by decide

/-- Claim C4 (counterexample).  An explicitly supplied timestamp 0 is
not stored: timestamp || this.currentTime treats 0 as falsy, so the
note created at playback position 7 stores 7 instead of the requested
0. -/
theorem addNote_explicit_zero_timestamp_ignored :
    (addNote "hi" [] (some 0) 1 "c" c4app).notes.map Note.timestamp = [7]
    ∧ (addNote "hi" [] (some 0) 1 "c" c4app).notes.map Note.timestamp ≠ [0] := by decide

/-- Claim C4 (amended).  The timestamp of the created note is the
current playback position exactly when the argument is omitted or equal
to 0 (both are falsy in JS); every explicitly supplied non-zero
timestamp is stored as given. -/
theorem addNote_timestamp_semantics (a : AppState) (text : String) (ps : List String)
    (t : ℚ) (now : Nat) (nowISO : String) (h : jsTrim text ≠ "") :
    (addNote text ps none now nowISO a).notes.map Note.timestamp
        = a.notes.map Note.timestamp ++ [a.currentTime]
    ∧ (t ≠ 0 → (addNote text ps (some t) now nowISO a).notes.map Note.timestamp
        = a.notes.map Note.timestamp ++ [t])
    ∧ (t = 0 → (addNote text ps (some t) now nowISO a).notes.map Note.timestamp
        = a.notes.map Note.timestamp ++ [a.currentTime]) := by
  refine ⟨?_, fun ht => ?_, fun ht => ?_⟩
  · simp [addNote, if_neg h, registerPeople_notes]
  · simp [addNote, if_neg h, if_neg ht, registerPeople_notes]
  · simp [addNote, if_neg h, if_pos ht, registerPeople_notes]

/-- Claim C4 (witness). -/
theorem addNote_timestamp_semantics_witness :
    (addNote "hi" [] (some 5) 1 "c" c4app).notes.map Note.timestamp
      = c4app.notes.map Note.timestamp ++ [5] :=
  (addNote_timestamp_semantics c4app "hi" [] 5 1 "c" (by decide)).2.1 (by decide)

/-- Claim C5 (counterexample).  Ids come from Date.now().toString(), so
two adds within the same millisecond create two distinct Notes (texts a
and b) with the same id, and deleteNote with that id removes both. -/
theorem addNote_same_millisecond_id_collision :
    (addNote "b" [] none 5 "c2" (addNote "a" [] none 5 "c1" emptyApp)).notes.map Note.id
        = [5, 5]
    ∧ (addNote "b" [] none 5 "c2" (addNote "a" [] none 5 "c1" emptyApp)).notes.map Note.text
        = ["a", "b"]
    ∧ (deleteNote 5 (addNote "b" [] none 5 "c2" (addNote "a" [] none 5 "c1" emptyApp))).notes
        = [] := by decide

/-- Claim C5 (amended).  Two add operations performed at distinct clock
readings append two notes carrying those distinct readings as ids (so
ids are unique whenever no two adds fall into the same millisecond);
adds within one millisecond share an id and delete by id then removes
all of them, as the counterexample shows. -/
theorem addNote_distinct_clock_ids (a : AppState) (t1 t2 : String) (p1 p2 : List String)
    (ts1 ts2 : Option ℚ) (n1 n2 : Nat) (i1 i2 : String)
    (h1 : jsTrim t1 ≠ "") (h2 : jsTrim t2 ≠ "") (hn : n1 ≠ n2) :
    (addNote t2 p2 ts2 n2 i2 (addNote t1 p1 ts1 n1 i1 a)).notes.map Note.id
      = a.notes.map Note.id ++ [n1, n2]
    ∧ (((addNote t2 p2 ts2 n2 i2 (addNote t1 p1 ts1 n1 i1 a)).notes.map Note.id).drop
        a.notes.length).Nodup := by
  have hmap : (addNote t2 p2 ts2 n2 i2 (addNote t1 p1 ts1 n1 i1 a)).notes.map Note.id
      = a.notes.map Note.id ++ [n1, n2] := by
    simp [addNote, if_neg h1, if_neg h2, registerPeople_notes]
  refine ⟨hmap, ?_⟩
  rw [hmap, List.drop_left' (by simp)]
  simp [hn]

/-- Claim C5 (witness). -/
theorem addNote_distinct_clock_ids_witness :
    (addNote "b" [] none 6 "c2" (addNote "a" [] none 5 "c1" emptyApp)).notes.map Note.id
      = emptyApp.notes.map Note.id ++ [5, 6] :=
  (addNote_distinct_clock_ids emptyApp "a" "b" [] [] none none 5 6 "c1" "c2"
    (by decide) (by decide) (by decide)).1

/-- Claim C6 (counterexample).  A document that parses but has neither
the named-project shape nor any flat-export field does not fail: it
falls through to importData, which replaces the Registry and the Store
with empty collections and reports success, leaving the active Project
modified. -/
theorem loadProject_shapeless_doc_wipes_state :
    (loadProject (ParseOutcome.doc shapelessDoc) abcApp).1.people = []
    ∧ (loadProject (ParseOutcome.doc shapelessDoc) abcApp).1.notes = []
    ∧ (loadProject (ParseOutcome.doc shapelessDoc) abcApp).1 ≠ abcApp
    ∧ (loadProject (ParseOutcome.doc shapelessDoc) abcApp).2 = true := by decide

/-- Claim C6 (amended).  An unparseable document (or a JSON null, on
which the property accesses throw inside the try block) makes the load
fail with an error report and leaves the active Project unchanged; but
a parseable document that merely lacks the required shape is imported
as a flat export with every missing field defaulted, so it replaces
the Registry and Store (with empty collections, when the fields are
absent) and reports success. -/
theorem loadProject_unparseable_preserves_state (a : AppState) :
    loadProject ParseOutcome.failure a = (a, false)
    ∧ loadProject ParseOutcome.nullDoc a = (a, false)
    ∧ importData ParseOutcome.failure a = (a, false)
    ∧ importData ParseOutcome.nullDoc a = (a, false) :=
  ⟨rfl, rfl, rfl, rfl⟩

/-- Claim C7.  The Filter Engine result is always sorted ascending by
timestamp; an empty selection returns all notes; a non-empty selection
in mode or returns exactly the notes referencing at least one selected
identity, in mode and exactly the notes referencing every selected
identity. -/
theorem getFilteredNotes_filter_semantics (selected : List String) (mode : String)
    (a : AppState) :
    List.Sorted timestampLE (getFilteredNotes selected mode a).1
    ∧ (selected = [] → ((getFilteredNotes selected mode a).1).Perm a.notes)
    ∧ (selected ≠ [] → mode = "or" →
        ∀ n, n ∈ (getFilteredNotes selected mode a).1 ↔
          n ∈ a.notes ∧ ∃ p, p ∈ selected ∧ p ∈ n.people)
    ∧ (selected ≠ [] → mode = "and" →
        ∀ n, n ∈ (getFilteredNotes selected mode a).1 ↔
          n ∈ a.notes ∧ ∀ p, p ∈ selected → p ∈ n.people) := by
  refine ⟨?_, ?_, ?_, ?_⟩
  · by_cases h : selected = []
    · subst h
      exact List.sorted_insertionSort timestampLE a.notes
    · unfold getFilteredNotes
      rw [if_neg h]
      exact List.sorted_insertionSort timestampLE _
  · intro h
    subst h
    exact List.perm_insertionSort timestampLE a.notes
  · intro h hm n
    subst hm
    unfold getFilteredNotes
    rw [if_neg h]
    show n ∈ sortNotes (a.notes.filter (noteMatches selected "or")) ↔ _
    have hp : (sortNotes (a.notes.filter (noteMatches selected "or"))).Perm
        (a.notes.filter (noteMatches selected "or")) :=
      List.perm_insertionSort timestampLE _
    rw [hp.mem_iff, List.mem_filter]
    simp [noteMatches, List.any_eq_true]
  · intro h hm n
    subst hm
    unfold getFilteredNotes
    rw [if_neg h]
    show n ∈ sortNotes (a.notes.filter (noteMatches selected "and")) ↔ _
    have hp : (sortNotes (a.notes.filter (noteMatches selected "and"))).Perm
        (a.notes.filter (noteMatches selected "and")) :=
      List.perm_insertionSort timestampLE _
    rw [hp.mem_iff, List.mem_filter]
    simp [noteMatches, List.all_eq_true]

/-- Claim C7 (witness): with selection x, y in mode and, noteB (tagged
with both) is in the result. -/
theorem getFilteredNotes_filter_semantics_witness :
    noteB ∈ (getFilteredNotes ["x", "y"] "and" abcApp).1 :=
  (((getFilteredNotes_filter_semantics ["x", "y"] "and" abcApp).2.2.2 (by decide) rfl)
    noteB).mpr (by decide)

/-- Claim C8 (counterexample).  Self-contained document generation
splices the video id into the embedded runtime as raw template-literal
text, so a project without a video (videoId null) re-extracts with the
string null as its video id, not equal to the source reference. -/
theorem selfContained_null_videoId_mismatch :
    (embeddedOf (exportData abcApp)).videoId = some "null"
    ∧ (embeddedOf (exportData abcApp)).videoId ≠ abcApp.videoId := by decide

/-- Claim C8 (amended).  Export followed by load (flat through
importData, named through loadProject) reproduces the Identity
Registry, the Annotation Store and the video id exactly and reports
success; the video URL is reproduced when no (truthy) video id is
present, and otherwise is recomputed as the canonical watch URL of the
id, which equals the original exactly when the original was canonical.
The data embedded by self-contained generation reproduces people and
notes exactly, but the video id is spliced as raw text (a null id
becomes the string null, as the counterexample shows). -/
theorem export_load_roundtrip (a : AppState) :
    ((importData (ParseOutcome.doc (docOfExport (exportData a))) a).2 = true
      ∧ (importData (ParseOutcome.doc (docOfExport (exportData a))) a).1.people = a.people
      ∧ (importData (ParseOutcome.doc (docOfExport (exportData a))) a).1.notes = a.notes
      ∧ (importData (ParseOutcome.doc (docOfExport (exportData a))) a).1.videoId = a.videoId)
    ∧ ((loadProject (ParseOutcome.doc (namedDocOf (exportData a))) a).2 = true
      ∧ (loadProject (ParseOutcome.doc (namedDocOf (exportData a))) a).1.people = a.people
      ∧ (loadProject (ParseOutcome.doc (namedDocOf (exportData a))) a).1.notes = a.notes
      ∧ (loadProject (ParseOutcome.doc (namedDocOf (exportData a))) a).1.videoId = a.videoId)
    ∧ ((a.videoId = none ∨ a.videoId = some "" →
          (importData (ParseOutcome.doc (docOfExport (exportData a))) a).1.videoUrl = a.videoUrl
          ∧ (loadProject (ParseOutcome.doc (namedDocOf (exportData a))) a).1.videoUrl
              = a.videoUrl)
      ∧ (∀ v, a.videoId = some v → v ≠ "" →
          (importData (ParseOutcome.doc (docOfExport (exportData a))) a).1.videoUrl
              = canonicalUrl v
          ∧ (loadProject (ParseOutcome.doc (namedDocOf (exportData a))) a).1.videoUrl
              = canonicalUrl v))
    ∧ ((embeddedOf (exportData a)).people = a.people
      ∧ (embeddedOf (exportData a)).notes = a.notes) := by
  rcases hv : a.videoId with _ | v
  · simp [importData, loadProject, applyFlat, docOfExport, namedDocOf, exportData,
      embeddedOf, loadVideoFromId, hv]
  · by_cases hve : v = ""
    · subst hve
      simp [importData, loadProject, applyFlat, docOfExport, namedDocOf, exportData,
        embeddedOf, loadVideoFromId, hv]
    · simp [importData, loadProject, applyFlat, docOfExport, namedDocOf, exportData,
        embeddedOf, loadVideoFromId, hv, hve]

/-- Claim C8 (witness). -/
theorem export_load_roundtrip_witness :
    (importData (ParseOutcome.doc (docOfExport (exportData vidApp))) vidApp).1.videoUrl
      = canonicalUrl "abc" :=
  (((export_load_roundtrip vidApp).2.2.1).2 "abc" rfl (by decide)).1

/-- Claim C9 (counterexample).  For the valid input timestamp 0 the
created note does not store 0: with playback position 3 the stored
timestamp is 3, so the note content does not equal the arguments. -/
theorem addNote_zero_timestamp_content_mismatch :
    (addNote "note" ["x"] (some 0) 4 "c" c9app).notes.map Note.timestamp = [3]
    ∧ (addNote "note" ["x"] (some 0) 4 "c" c9app).notes.map Note.timestamp ≠ [0] := by decide

/-- Claim C9 (amended).  For text that does not trim to empty and a
non-zero timestamp t, add appends exactly one note whose content equals
the arguments (trimmed text, blank-entries-dropped identity list,
timestamp t); every non-blank identity of the argument list is in the
Registry afterwards, and the Registry grows exactly by a duplicate-free
suffix of fresh names taken in the order encountered (a sublist of the
filtered argument list).  A timestamp equal to 0 is replaced by the
playback position, as the counterexample shows. -/
theorem addNote_spec (a : AppState) (text : String) (ps : List String) (t : ℚ)
    (now : Nat) (nowISO : String) (htext : jsTrim text ≠ "") (ht : t ≠ 0) :
    (addNote text ps (some t) now nowISO a).notes
        = a.notes ++ [{ id := now, text := jsTrim text,
                        people := ps.filter (fun p => jsTrim p != ""),
                        timestamp := t, createdAt := nowISO, updatedAt := none }]
    ∧ (∀ p, p ∈ ps → jsTrim p ≠ "" → p ∈ (addNote text ps (some t) now nowISO a).people)
    ∧ ∃ new, (addNote text ps (some t) now nowISO a).people = a.people ++ new
        ∧ new.Sublist (ps.filter (fun p => jsTrim p != "")) ∧ new.Nodup
        ∧ ∀ p ∈ new, p ∉ a.people := by
  have heq : addNote text ps (some t) now nowISO a
      = registerPeople (ps.filter (fun p => jsTrim p != ""))
          { a with notes := a.notes ++
              [{ id := now, text := jsTrim text,
                 people := ps.filter (fun p => jsTrim p != ""),
                 timestamp := t, createdAt := nowISO, updatedAt := none }] } := by
    unfold addNote
    rw [if_neg htext]
    simp only [if_neg ht]
  refine ⟨?_, ?_, ?_⟩
  · rw [heq, registerPeople_notes]
  · intro p hp hpt
    rw [heq]
    have hfil : p ∈ ps.filter (fun q => jsTrim q != "") := by
      rw [List.mem_filter]
      exact ⟨hp, by simpa [bne_iff_ne] using hpt⟩
    have hp0 : p ≠ "" := by
      intro he
      apply hpt
      rw [he]
      rfl
    obtain ⟨new, h1, h2, h3, h4, h5⟩ :=
      registerPeople_spec (ps.filter (fun q => jsTrim q != ""))
        { a with notes := a.notes ++
            [{ id := now, text := jsTrim text,
               people := ps.filter (fun p => jsTrim p != ""),
               timestamp := t, createdAt := nowISO, updatedAt := none }] }
    exact h5 p hfil hp0
  · rw [heq]
    obtain ⟨new, h1, h2, h3, h4, _⟩ :=
      registerPeople_spec (ps.filter (fun q => jsTrim q != ""))
        { a with notes := a.notes ++
            [{ id := now, text := jsTrim text,
               people := ps.filter (fun p => jsTrim p != ""),
               timestamp := t, createdAt := nowISO, updatedAt := none }] }
    exact ⟨new, h1, h2, h3, h4⟩

/-- Claim C9 (witness). -/
theorem addNote_spec_witness :
    "x" ∈ (addNote "note" ["x"] (some 2) 1 "c" emptyApp).people :=
  (addNote_spec emptyApp "note" ["x"] 2 1 "c" (by decide) (by decide)).2.1 "x"
    (by decide) (by decide)

/-- Claim C10.  removePerson removes every occurrence of the name from
the Registry and nothing else, and leaves every Note (text, identity
list, timestamp) untouched, so a note referencing the removed name
keeps its dangling reference. -/
theorem removePerson_preserves_notes (name : String) (a : AppState) :
    (removePerson name a).notes = a.notes
    ∧ name ∉ (removePerson name a).people
    ∧ ∀ p, p ≠ name → (p ∈ (removePerson name a).people ↔ p ∈ a.people) := by
  refine ⟨rfl, ?_, ?_⟩
  · simp [removePerson, List.mem_filter]
  · intro p hp
    simp [removePerson, List.mem_filter, bne_iff_ne, hp]

/-- Claim C10 (witness). -/
theorem removePerson_preserves_notes_witness :
    ("y" ∈ (removePerson "x" abcApp).people ↔ "y" ∈ abcApp.people) :=
  (removePerson_preserves_notes "x" abcApp).2.2 "y" (by decide)

end VidNotes
